import Mathlib

/-!
Shallow embedding of the dockable-panel window manager of
`bevy_editor_pls` (`crates/bevy_editor_pls_core/src/editor.rs`).

Window identities (`TypeId` in Rust) are modelled as `Nat`.
Screen coordinates (`egui::Pos2`, `f32`) are modelled as `Int`: every
comparison the manager performs on positions is an order comparison, so the
branching structure is preserved.  `egui::Rect::EVERYTHING` (infinite
bounds) is modelled by a dedicated constructor whose `contains` is
constantly true, matching the egui semantics on all finite points.
-/

namespace BevyEditorPls

/-- `egui::Pos2` with integer coordinates. -/
structure Pos2 where
  x : Int
  y : Int
deriving DecidableEq, Repr

/-- `egui::Rect`: either the infinite rectangle `Rect::EVERYTHING` or a
finite min/max box. -/
inductive Rect where
  | everything : Rect
  | box (min max : Pos2) : Rect
deriving DecidableEq, Repr

/-- `egui::Rect::contains` (inclusive on all four sides; always true for
`EVERYTHING`). -/
def Rect.contains : Rect → Pos2 → Bool
  | .everything, _ => true
  | .box lo hi, p =>
      lo.x ≤ p.x && p.x ≤ hi.x && lo.y ≤ p.y && p.y ≤ hi.y

/-- `enum EditorPanel { Left, Right, Bottom }` -/
inductive EditorPanel where
  | Left
  | Right
  | Bottom
deriving DecidableEq, Repr

/-- `struct FloatingWindow` -/
structure FloatingWindow where
  window : Nat
  id : Nat
  original_panel : Option EditorPanel
  initial_position : Option Pos2
deriving DecidableEq, Repr

/-- `enum WindowPosition { Panel(EditorPanel), FloatingWindow(u32) }` -/
inductive WindowPosition where
  | Panel (panel : EditorPanel)
  | FloatingWindow (id : Nat)
deriving DecidableEq, Repr

/-- `WindowPosition::panel` -/
def WindowPosition.panel : WindowPosition → Option EditorPanel
  | .Panel p => some p
  | .FloatingWindow _ => none

/-- `enum DropLocation { Panel(EditorPanel), NewFloatingWindow }` -/
inductive DropLocation where
  | Panel (panel : EditorPanel)
  | NewFloatingWindow
deriving DecidableEq, Repr

/-- `struct EditorInternalState` -/
structure EditorInternalState where
  left_panel : Option Nat
  right_panel : Option Nat
  bottom_panel : Option Nat
  floating_windows : List FloatingWindow
  viewport : Rect
  active_drag_window : Option WindowPosition
  active_drop_location : Option DropLocation
  next_floating_window_id : Nat
deriving DecidableEq, Repr

namespace EditorInternalState

/-- `EditorInternalState::active_panel` -/
def active_panel (s : EditorInternalState) : EditorPanel → Option Nat
  | .Left => s.left_panel
  | .Right => s.right_panel
  | .Bottom => s.bottom_panel

/-- Writing through `EditorInternalState::active_panel_mut`:
`*self.active_panel_mut(panel) = v`. -/
def setPanel (s : EditorInternalState) (panel : EditorPanel) (v : Option Nat) :
    EditorInternalState :=
  match panel with
  | .Left => { s with left_panel := v }
  | .Right => { s with right_panel := v }
  | .Bottom => { s with bottom_panel := v }

/-- `EditorInternalState::is_in_viewport` -/
def is_in_viewport (s : EditorInternalState) (pos : Pos2) : Bool :=
  s.viewport.contains pos

end EditorInternalState

/-- `self.floating_windows.iter_mut().find(|a| a.id == id)` followed by
`floating_window.window = window`: update the first floating window with
the given id, if any. -/
def setFloatingWindowFirst : List FloatingWindow → Nat → Nat → List FloatingWindow
  | [], _, _ => []
  | fw :: rest, id, w =>
      if fw.id = id then { fw with window := w } :: rest
      else fw :: setFloatingWindowFirst rest id w

/-- `EditorInternalState::set_window` -/
def EditorInternalState.set_window (s : EditorInternalState) :
    WindowPosition → Nat → EditorInternalState
  | .Panel panel, w => s.setPanel panel (some w)
  | .FloatingWindow id, w =>
      { s with floating_windows := setFloatingWindowFirst s.floating_windows id w }

/-- `Vec::swap_remove(i)`: the element at index `i` is replaced by the last
element, which is then popped. -/
def swapRemove {α : Type} (l : List α) (i : Nat) : List α :=
  match l.getLast? with
  | none => l
  | some last => (l.set i last).dropLast

/-- Pointer input snapshot consumed by `handle_drag_and_drop`
(`ctx.input().pointer`). -/
structure PointerInput where
  any_released : Bool
  interact_pos : Option Pos2
deriving DecidableEq, Repr

/-- Extraction of the dragged identity in `Editor::handle_drag_and_drop`
(the `match active_window` block): clears the source slot, or
swap-removes the source floating window.  `none` models the `unwrap()`
panics (empty source slot / unknown floating id). -/
def extractDragged (s : EditorInternalState) :
    WindowPosition → Option (Nat × EditorInternalState)
  | .Panel panel =>
      match s.active_panel panel with
      | none => none
      | some window_id => some (window_id, s.setPanel panel none)
  | .FloatingWindow id =>
      match s.floating_windows.findIdx? (fun fw => fw.id == id) with
      | none => none
      | some index =>
          match s.floating_windows.get? index with
          | none => none
          | some fw =>
              some (fw.window,
                { s with floating_windows := swapRemove s.floating_windows index })

/-- The `match drop_location` block of `Editor::handle_drag_and_drop`. -/
def applyDrop (s : EditorInternalState) (active_window : WindowPosition)
    (window_id : Nat) (inp : PointerInput) : DropLocation → EditorInternalState
  | .Panel panel =>
      let previous_window := s.active_panel panel
      let s1 := s.setPanel panel (some window_id)
      match previous_window with
      | some prev => s1.set_window active_window prev
      | none => s1
  | .NewFloatingWindow =>
      let id := s.next_floating_window_id
      { s with
        next_floating_window_id := id + 1,
        floating_windows := s.floating_windows ++
          [⟨window_id, id, active_window.panel, inp.interact_pos⟩] }

/-- The `match std::mem::take(&mut internal_state.active_drop_location)`
scrutinee: a recorded drop target, or a fresh `NewFloatingWindow` when the
release position is inside the viewport, else `none` (abandon). -/
def resolveDropLocation (s : EditorInternalState) (inp : PointerInput) :
    Option DropLocation :=
  match s.active_drop_location with
  | some d => some d
  | none =>
      match inp.interact_pos with
      | none => none
      | some pos =>
          if s.is_in_viewport pos then some .NewFloatingWindow else none

/-- `Editor::handle_drag_and_drop`.  The result is the successor state;
`none` models a panic (`unwrap()` on an empty source slot or an unknown
floating-window id).  Early `return None` paths in Rust leave the state as
mutated so far (drag fields already taken), which is reflected here. -/
def handle_drag_and_drop (s : EditorInternalState) (inp : PointerInput) :
    Option EditorInternalState :=
  if !inp.any_released then some s
  else
    match s.active_drag_window with
    | none => some s
    | some active_window =>
        let s1 := { s with active_drag_window := none }
        let drop? := resolveDropLocation s1 inp
        let s2 := { s1 with active_drop_location := none }
        match drop? with
        | none => some s2
        | some drop_location =>
            match extractDragged s2 active_window with
            | none => none
            | some (window_id, s3) =>
                some (applyDrop s3 active_window window_id inp drop_location)

/-- The "Open window" menu action (`Editor::editor_menu_bar`): spawn a
floating window for the clicked kind, no origin panel, no initial
position. -/
def openWindowFromMenu (s : EditorInternalState) (window_id : Nat) :
    EditorInternalState :=
  let fid := s.next_floating_window_id
  { s with
    next_floating_window_id := fid + 1,
    floating_windows := s.floating_windows ++ [⟨window_id, fid, none, none⟩] }

/-- The "Pop out" context-menu action (`Editor::editor_window_context_menu`):
take the slot's content and spawn a floating window remembering the origin
panel. -/
def popOut (s : EditorInternalState) (panel : EditorPanel) :
    EditorInternalState :=
  match s.active_panel panel with
  | none => s
  | some window =>
      let s1 := s.setPanel panel none
      let fid := s1.next_floating_window_id
      { s1 with
        next_floating_window_id := fid + 1,
        floating_windows := s1.floating_windows ++ [⟨window, fid, some panel, none⟩] }

/-- Closing one floating window, by index into the current list
(`Editor::editor_floating_windows`, removal loop body): swap-remove it and,
if it carries an origin panel, `get_or_insert` its identity into that
panel. -/
def closeOne (s : EditorInternalState) (i : Nat) : EditorInternalState :=
  match s.floating_windows.get? i with
  | none => s
  | some fw =>
      let s1 := { s with floating_windows := swapRemove s.floating_windows i }
      match fw.original_panel with
      | none => s1
      | some p =>
          match s1.active_panel p with
          | none => s1.setPanel p (some fw.window)
          | some _ => s1

/-- The removal loop of `Editor::editor_floating_windows`: the collected
indices are processed in reverse order. -/
def closeFloatingWindows (s : EditorInternalState) (idxs : List Nat) :
    EditorInternalState :=
  idxs.reverse.foldl closeOne s

/-- The initial internal state built in `Editor::system` from the registry's
insertion-ordered window identities. -/
def initialState (windows : List Nat) : EditorInternalState :=
  { left_panel := windows.get? 0
    right_panel := windows.get? 1
    bottom_panel := windows.get? 2
    floating_windows := []
    viewport := .everything
    active_drag_window := none
    active_drop_location := none
    next_floating_window_id := 0 }

/-- The registry (`struct Editor`): `windows` is the insertion-ordered list
of identities (an `IndexMap` with no removals), `window_states` the state
blobs keyed by identity (a `HashMap`), with blob type `σ`. -/
structure Editor (σ : Type) where
  windows : List Nat
  window_states : List (Nat × σ)
deriving DecidableEq, Repr

/-- `HashMap::insert`: overwrite the value if the key is present, else
append. -/
def hmInsert {σ : Type} (l : List (Nat × σ)) (k : Nat) (v : σ) : List (Nat × σ) :=
  if l.any (fun p => p.1 == k) then
    l.map (fun p => if p.1 = k then (k, v) else p)
  else l ++ [(k, v)]

/-- `Editor::add_window`: `none` models the `panic!` on a duplicate
identity; otherwise the kind is appended to the registry and its state
blob initialised to the kind's default value. -/
def Editor.add_window {σ : Type} (e : Editor σ) (type_id : Nat) (deflt : σ) :
    Option (Editor σ) :=
  if type_id ∈ e.windows then none
  else some { windows := e.windows ++ [type_id]
              window_states := hmInsert e.window_states type_id deflt }

/-- `Editor::window_state`: look up a state blob by identity. -/
def Editor.window_state {σ : Type} (e : Editor σ) (type_id : Nat) : Option σ :=
  (e.window_states.find? (fun p => p.1 == type_id)).map (fun p => p.2)

/-- Menu enumeration order (`self.windows.iter()` in
`Editor::editor_menu_bar`): the registry's insertion order. -/
def Editor.menuWindows {σ : Type} (e : Editor σ) : List Nat :=
  e.windows

/-- Register a list of kinds in order, propagating the duplicate panic. -/
def registerAll {σ : Type} (deflt : Nat → σ) :
    List Nat → Editor σ → Option (Editor σ)
  | [], e => some e
  | w :: ws, e =>
      match e.add_window w (deflt w) with
      | none => none
      | some e1 => registerAll deflt ws e1

/-- The user-level action "drag slot `a`'s content onto slot `b`": rendering
records the drag source and the hovered drop target, then pointer release
resolves via `handle_drag_and_drop`. -/
def dragSlotToSlot (s : EditorInternalState) (a b : EditorPanel)
    (inp : PointerInput) : Option EditorInternalState :=
  handle_drag_and_drop
    { s with active_drag_window := some (.Panel a),
             active_drop_location := some (.Panel b) } inp

/-- Does any panel slot hold identity `w`? -/
def appearsDocked (s : EditorInternalState) (w : Nat) : Bool :=
  s.left_panel == some w || s.right_panel == some w || s.bottom_panel == some w

/-- Does any floating window host identity `w`? -/
def appearsFloating (s : EditorInternalState) (w : Nat) : Bool :=
  s.floating_windows.any (fun fw => fw.window == w)

/-- Number of locations (slots plus floating windows) showing identity
`w`. -/
def occurrenceCount (s : EditorInternalState) (w : Nat) : Nat :=
  (if s.left_panel = some w then 1 else 0) +
  (if s.right_panel = some w then 1 else 0) +
  (if s.bottom_panel = some w then 1 else 0) +
  (s.floating_windows.filter (fun fw => fw.window == w)).length

/-- One step of the window manager: the state mutations the UI pass can
perform on `EditorInternalState`. -/
inductive EditorStep : EditorInternalState → EditorInternalState → Prop where
  | select (s : EditorInternalState) (p : EditorPanel) (w : Option Nat) :
      EditorStep s (s.setPanel p w)
  | menuOpen (s : EditorInternalState) (w : Nat) :
      EditorStep s (openWindowFromMenu s w)
  | popOut (s : EditorInternalState) (p : EditorPanel) :
      EditorStep s (popOut s p)
  | close (s : EditorInternalState) (idxs : List Nat) :
      EditorStep s (closeFloatingWindows s idxs)
  | beginDrag (s : EditorInternalState) (src : WindowPosition) :
      EditorStep s { s with active_drag_window := some src }
  | recordDrop (s : EditorInternalState) (d : Option DropLocation) :
      EditorStep s { s with active_drop_location := d }
  | setViewport (s : EditorInternalState) (r : Rect) :
      EditorStep s { s with viewport := r }
  | drag (s s' : EditorInternalState) (inp : PointerInput)
      (h : handle_drag_and_drop s inp = some s') :
      EditorStep s s'

/-- Reachability from a state by manager steps. -/
def Reachable : EditorInternalState → EditorInternalState → Prop :=
  Relation.ReflTransGen EditorStep

/-- Release-build semantics of the "Open window" menu action: the id
counter is a `u32` (`EditorInternalState::next_floating_window_id`,
editor.rs:72 and 111-116), so `self.next_floating_window_id += 1` wraps
modulo `2 ^ 32` in release builds.  The non-wrapping `openWindowFromMenu`
above coincides with this as long as fewer than `2 ^ 32` ids have ever
been allocated (in debug builds the increment panics at that point
instead of wrapping). -/
def openWindowFromMenuW (s : EditorInternalState) (window_id : Nat) :
    EditorInternalState :=
  let fid := s.next_floating_window_id
  { s with
    next_floating_window_id := (fid + 1) % 2 ^ 32,
    floating_windows := s.floating_windows ++ [⟨window_id, fid, none, none⟩] }

/-- Release-build (wrapping `u32` counter) semantics of the "Pop out"
context-menu action; see `openWindowFromMenuW`. -/
def popOutW (s : EditorInternalState) (panel : EditorPanel) :
    EditorInternalState :=
  match s.active_panel panel with
  | none => s
  | some window =>
      let s1 := s.setPanel panel none
      let fid := s1.next_floating_window_id
      { s1 with
        next_floating_window_id := (fid + 1) % 2 ^ 32,
        floating_windows := s1.floating_windows ++ [⟨window, fid, some panel, none⟩] }

/-- Release-build (wrapping `u32` counter) semantics of the
`match drop_location` block of `Editor::handle_drag_and_drop`; see
`openWindowFromMenuW`. -/
def applyDropW (s : EditorInternalState) (active_window : WindowPosition)
    (window_id : Nat) (inp : PointerInput) : DropLocation → EditorInternalState
  | .Panel panel =>
      let previous_window := s.active_panel panel
      let s1 := s.setPanel panel (some window_id)
      match previous_window with
      | some prev => s1.set_window active_window prev
      | none => s1
  | .NewFloatingWindow =>
      let id := s.next_floating_window_id
      { s with
        next_floating_window_id := (id + 1) % 2 ^ 32,
        floating_windows := s.floating_windows ++
          [⟨window_id, id, active_window.panel, inp.interact_pos⟩] }

/-- Release-build (wrapping `u32` counter) semantics of
`Editor::handle_drag_and_drop`; see `openWindowFromMenuW`. -/
def handle_drag_and_dropW (s : EditorInternalState) (inp : PointerInput) :
    Option EditorInternalState :=
  if !inp.any_released then some s
  else
    match s.active_drag_window with
    | none => some s
    | some active_window =>
        let s1 := { s with active_drag_window := none }
        let drop? := resolveDropLocation s1 inp
        let s2 := { s1 with active_drop_location := none }
        match drop? with
        | none => some s2
        | some drop_location =>
            match extractDragged s2 active_window with
            | none => none
            | some (window_id, s3) =>
                some (applyDropW s3 active_window window_id inp drop_location)

/-- One step of the window manager under the release-build wrapping `u32`
id counter: same operations as `EditorStep`, with the three allocating
operations replaced by their wrapping versions. -/
inductive EditorStepW : EditorInternalState → EditorInternalState → Prop where
  | select (s : EditorInternalState) (p : EditorPanel) (w : Option Nat) :
      EditorStepW s (s.setPanel p w)
  | menuOpen (s : EditorInternalState) (w : Nat) :
      EditorStepW s (openWindowFromMenuW s w)
  | popOut (s : EditorInternalState) (p : EditorPanel) :
      EditorStepW s (popOutW s p)
  | close (s : EditorInternalState) (idxs : List Nat) :
      EditorStepW s (closeFloatingWindows s idxs)
  | beginDrag (s : EditorInternalState) (src : WindowPosition) :
      EditorStepW s { s with active_drag_window := some src }
  | recordDrop (s : EditorInternalState) (d : Option DropLocation) :
      EditorStepW s { s with active_drop_location := d }
  | setViewport (s : EditorInternalState) (r : Rect) :
      EditorStepW s { s with viewport := r }
  | drag (s s' : EditorInternalState) (inp : PointerInput)
      (h : handle_drag_and_dropW s inp = some s') :
      EditorStepW s s'

/-- Reachability under the wrapping-counter step relation. -/
def ReachableW : EditorInternalState → EditorInternalState → Prop :=
  Relation.ReflTransGen EditorStepW

/-- Wrap-free reachability: reachability by wrapping-counter steps on each
of which the `u32` allocation counter stays monotone — i.e. the `+= 1` in
`next_floating_window_id` never wrapped, which holds exactly as long as
fewer than `2 ^ 32` ids have ever been allocated. -/
inductive ReachableNW : EditorInternalState → EditorInternalState → Prop where
  | refl (s : EditorInternalState) : ReachableNW s s
  | tail (s t u : EditorInternalState) :
      ReachableNW s t → EditorStepW t u →
      t.next_floating_window_id ≤ u.next_floating_window_id →
      ReachableNW s u

/-- User scenario "open a window from the menu, then immediately close it":
spawns a floating window for kind 1 and closes it (its index is the old
length of the set).  Nets one allocation of the wrapping counter while
leaving the floating-window set unchanged. -/
def spawnPopW (s : EditorInternalState) : EditorInternalState :=
  closeFloatingWindows (openWindowFromMenuW s 1) [s.floating_windows.length]

/-- `n` repetitions of `spawnPopW`. -/
def spawnPopIterW : Nat → EditorInternalState → EditorInternalState
  | 0, s => s
  | n + 1, s => spawnPopIterW n (spawnPopW s)

/-- The state after drag resolution has taken (`std::mem::take`) both the
drag source and the drop target. -/
def clearDragState (s : EditorInternalState) : EditorInternalState :=
  { s with active_drag_window := none, active_drop_location := none }

/-- A state with an in-flight drag recorded by the render pass: source
`src`, hover target `d` (if any). -/
def withDrag (s : EditorInternalState) (src : WindowPosition)
    (d : Option DropLocation) : EditorInternalState :=
  { s with active_drag_window := some src, active_drop_location := d }

end BevyEditorPls

namespace Lemmas

open BevyEditorPls

theorem active_panel_setPanel (s : EditorInternalState) (p q : EditorPanel) (v : Option Nat) :
    (s.setPanel p v).active_panel q = if q = p then v else s.active_panel q := by
  cases p <;> cases q <;>
    simp [EditorInternalState.setPanel, EditorInternalState.active_panel]

theorem setPanel_floating_windows (s : EditorInternalState) (p : EditorPanel) (v : Option Nat) :
    (s.setPanel p v).floating_windows = s.floating_windows := by
  cases p <;> rfl

theorem setPanel_next_id (s : EditorInternalState) (p : EditorPanel) (v : Option Nat) :
    (s.setPanel p v).next_floating_window_id = s.next_floating_window_id := by
  cases p <;> rfl

theorem setPanel_viewport (s : EditorInternalState) (p : EditorPanel) (v : Option Nat) :
    (s.setPanel p v).viewport = s.viewport := by
  cases p <;> rfl

theorem setPanel_drag (s : EditorInternalState) (p : EditorPanel) (v : Option Nat) :
    (s.setPanel p v).active_drag_window = s.active_drag_window := by
  cases p <;> rfl

theorem setPanel_drop (s : EditorInternalState) (p : EditorPanel) (v : Option Nat) :
    (s.setPanel p v).active_drop_location = s.active_drop_location := by
  cases p <;> rfl

theorem setFloatingWindowFirst_of_no_match (l : List FloatingWindow) (id w : Nat)
    (h : ∀ fw ∈ l, fw.id ≠ id) : setFloatingWindowFirst l id w = l := by
  induction l with
  | nil => rfl
  | cons fw rest ih =>
      rw [setFloatingWindowFirst, if_neg (h fw (by simp)),
        ih (fun g hg => h g (by simp [hg]))]

theorem map_id_setFloatingWindowFirst (l : List FloatingWindow) (id w : Nat) :
    (setFloatingWindowFirst l id w).map (fun fw => fw.id) =
      l.map (fun fw => fw.id) := by
  induction l with
  | nil => rfl
  | cons fw rest ih =>
      by_cases h : fw.id = id <;> simp [setFloatingWindowFirst, h, ih]

end Lemmas

namespace Lemmas

open BevyEditorPls

theorem swapRemove_eq_of_getLast? {α : Type} {l : List α} {a : α}
    (h : l.getLast? = some a) (i : Nat) :
    swapRemove l i = (l.set i a).dropLast := by
  unfold swapRemove
  rw [h]

theorem swapRemove_concat {α : Type} (xs : List α) (a : α) (i : Nat) :
    swapRemove (xs ++ [a]) i = if i < xs.length then xs.set i a else xs := by
  rw [swapRemove_eq_of_getLast? (List.getLast?_concat xs) i]
  by_cases h : i < xs.length
  · rw [if_pos h, List.set_append_left _ _ h, List.dropLast_concat]
  · rw [if_neg h, List.set_append_right _ _ (Nat.le_of_not_lt h)]
    have : List.set [a] (i - xs.length) a = [a] := by
      cases i - xs.length <;> rfl
    rw [this, List.dropLast_concat]

theorem swapRemove_perm {α : Type} (l : List α) (i : Nat) (h : i < l.length) :
    List.Perm (swapRemove l i) (l.eraseIdx i) := by
  rcases List.eq_nil_or_concat l with rfl | ⟨xs, a, rfl⟩
  · simp at h
  · rw [List.concat_eq_append] at h ⊢
    rw [swapRemove_concat]
    by_cases hi : i < xs.length
    · rw [if_pos hi, List.eraseIdx_append_of_lt_length hi,
        List.set_eq_take_cons_drop a hi, List.eraseIdx_eq_take_drop_succ]
      exact List.perm_middle.trans (List.perm_append_singleton _ _).symm
    · have hix : i = xs.length := by
        simp only [List.length_append, List.length_cons, List.length_nil] at h
        omega
      rw [if_neg hi, hix, List.eraseIdx_append_of_length_le (Nat.le_refl _)]
      simp

theorem mem_of_mem_swapRemove {α : Type} {l : List α} {i : Nat} {x : α}
    (hx : x ∈ swapRemove l i) : x ∈ l := by
  by_cases h : i < l.length
  · exact List.Sublist.subset (List.eraseIdx_sublist l i)
      ((swapRemove_perm l i h).subset hx)
  · cases hgl : l.getLast? with
    | none =>
        unfold swapRemove at hx
        rw [hgl] at hx
        exact hx
    | some a =>
        rw [swapRemove_eq_of_getLast? hgl,
          List.set_eq_of_length_le (Nat.le_of_not_lt h)] at hx
        exact (List.dropLast_sublist l).subset hx

theorem filter_eraseIdx_eq_nil {α : Type} {l : List α} {i : Nat} {p : α → Bool}
    (hp : ∀ j, j ≠ i → ∀ x, l[j]? = some x → p x = false) :
    (l.eraseIdx i).filter p = [] := by
  rw [List.filter_eq_nil_iff]
  intro x hx
  rw [List.eraseIdx_eq_take_drop_succ, List.mem_append] at hx
  rcases hx with hx | hx
  · obtain ⟨m, hm⟩ := List.mem_iff_getElem?.mp hx
    have hmlt : m < i := by
      have := List.getElem?_eq_some_iff.mp hm
      have hlen := this.1
      rw [List.length_take] at hlen
      omega
    rw [List.getElem?_take_of_lt hmlt] at hm
    simp [hp m (by omega) x hm]
  · obtain ⟨m, hm⟩ := List.mem_iff_getElem?.mp hx
    rw [List.getElem?_drop] at hm
    simp [hp (i + 1 + m) (by omega) x hm]

theorem filter_swapRemove_eq_nil {α : Type} {l : List α} {i : Nat} {p : α → Bool}
    (h : i < l.length)
    (hp : ∀ j, j ≠ i → ∀ x, l[j]? = some x → p x = false) :
    (swapRemove l i).filter p = [] := by
  have h1 := (swapRemove_perm l i h).filter p
  rw [filter_eraseIdx_eq_nil hp] at h1
  exact h1.eq_nil

end Lemmas

namespace Lemmas

open BevyEditorPls

theorem hmInsert_fresh {σ : Type} (l : List (Nat × σ)) (k : Nat) (v : σ)
    (h : ∀ p ∈ l, p.1 ≠ k) : hmInsert l k v = l ++ [(k, v)] := by
  have hl : l.any (fun p => p.1 == k) = false := by
    rw [List.any_eq_false]
    intro p hp
    simp [h p hp]
  unfold hmInsert
  rw [hl]
  simp

theorem find?_append_fresh {σ : Type} (l : List (Nat × σ)) (k : Nat) (v : σ)
    (h : ∀ p ∈ l, p.1 ≠ k) :
    (l ++ [(k, v)]).find? (fun p => p.1 == k) = some (k, v) := by
  induction l with
  | nil => simp
  | cons q rest ih =>
      have hq : (q.1 == k) = false := by simp [h q (by simp)]
      simp only [List.cons_append, List.find?_cons, hq]
      exact ih (fun p hp => h p (by simp [hp]))

theorem registerAll_windows {σ : Type} (deflt : Nat → σ) (ws : List Nat) :
    ∀ e : Editor σ, ws.Nodup → (∀ w ∈ ws, w ∉ e.windows) →
      ∃ e', registerAll deflt ws e = some e' ∧ e'.windows = e.windows ++ ws := by
  induction ws with
  | nil => exact fun e _ _ => ⟨e, rfl, by simp⟩
  | cons w ws ih =>
      intro e hnd hfresh
      have hw : w ∉ e.windows := hfresh w (by simp)
      have hstep : e.add_window w (deflt w) =
          some ⟨e.windows ++ [w], hmInsert e.window_states w (deflt w)⟩ := by
        simp [Editor.add_window, hw]
      obtain ⟨e', h1, h2⟩ :=
        ih ⟨e.windows ++ [w], hmInsert e.window_states w (deflt w)⟩
          (List.nodup_cons.mp hnd).2
          (by
            intro v hv hmem
            rcases List.mem_append.mp hmem with hin | hsing
            · exact hfresh v (List.mem_cons_of_mem _ hv) hin
            · rw [List.mem_singleton] at hsing
              subst hsing
              exact (List.nodup_cons.mp hnd).1 hv)
      refine ⟨e', ?_, ?_⟩
      · simp only [registerAll, hstep]
        exact h1
      · rw [h2]
        simp

end Lemmas

open BevyEditorPls Lemmas

/-- C6: if the pointer is released in a frame with no active drag source,
drag resolution leaves the whole internal state unchanged (in particular the
three panel slots, the floating-window set and the id counter). -/
theorem C6_release_without_drag_is_noop (s : EditorInternalState)
    (inp : PointerInput) (hrel : inp.any_released = true)
    (h : s.active_drag_window = none) :
    handle_drag_and_drop s inp = some s := by
  simp [handle_drag_and_drop, hrel, h]

/-- Witness for C6 at a concrete state and input. -/
theorem C6_release_without_drag_is_noop_witness :
    (initialState [1, 2]).active_drag_window = none ∧
    handle_drag_and_drop (initialState [1, 2]) ⟨true, none⟩ =
      some (initialState [1, 2]) :=
  ⟨rfl, C6_release_without_drag_is_noop _ _ rfl rfl⟩

/-- C10: `set_window` aimed at a floating-window id that is not currently
open leaves the entire internal state unchanged (silent no-op), so the
identity passed in lands nowhere. -/
theorem C10_set_window_dead_floating_id (s : EditorInternalState) (id w : Nat)
    (h : ∀ fw ∈ s.floating_windows, fw.id ≠ id) :
    s.set_window (.FloatingWindow id) w = s := by
  show { s with floating_windows := setFloatingWindowFirst s.floating_windows id w } = s
  rw [setFloatingWindowFirst_of_no_match _ _ _ h]

/-- Witness for C10: a state with one open floating window (id 0) and a
`set_window` aimed at the dead id 3. -/
theorem C10_set_window_dead_floating_id_witness :
    (∀ fw ∈ (openWindowFromMenu (initialState [5]) 5).floating_windows, fw.id ≠ 3) ∧
    (openWindowFromMenu (initialState [5]) 5).set_window (.FloatingWindow 3) 7 =
      openWindowFromMenu (initialState [5]) 5 :=
  ⟨by decide, C10_set_window_dead_floating_id _ 3 7 (by decide)⟩

/-- C8: registering a window kind whose identity is already present panics
(`none`); registering a fresh identity appends the kind in insertion order
and initialises its state blob to the kind's default value. -/
theorem C8_add_window_spec {σ : Type} (e : Editor σ) (ty : Nat) (d : σ) :
    (ty ∈ e.windows → e.add_window ty d = none) ∧
    (ty ∉ e.windows →
      e.add_window ty d =
        some { windows := e.windows ++ [ty]
               window_states := hmInsert e.window_states ty d } ∧
      ((∀ p ∈ e.window_states, p.1 ≠ ty) →
        ∀ e', e.add_window ty d = some e' → e'.window_state ty = some d)) := by
  refine ⟨fun h => ?_, fun h => ⟨?_, fun hst e' he' => ?_⟩⟩
  · simp [Editor.add_window, h]
  · simp [Editor.add_window, h]
  · have he : e.add_window ty d =
        some ⟨e.windows ++ [ty], hmInsert e.window_states ty d⟩ := by
      simp [Editor.add_window, h]
    rw [he] at he'
    injection he' with he''
    subst he''
    unfold Editor.window_state
    rw [hmInsert_fresh _ _ _ hst, find?_append_fresh _ _ _ hst]
    rfl

/-- Witness for C8: duplicate registration of identity 1 panics; fresh
registration of identity 2 succeeds and stores the default blob. -/
theorem C8_add_window_spec_witness :
    ((1 : Nat) ∈ (Editor.mk [1] [(1, 10)] : Editor Nat).windows →
      (Editor.mk [1] [(1, 10)] : Editor Nat).add_window 1 10 = none) ∧
    ((2 : Nat) ∉ (Editor.mk [1] [(1, 10)] : Editor Nat).windows →
      (Editor.mk [1] [(1, 10)] : Editor Nat).add_window 2 20 =
        some { windows := [1] ++ [2]
               window_states := hmInsert [(1, 10)] 2 20 } ∧
      ((∀ p ∈ (Editor.mk [1] [(1, 10)] : Editor Nat).window_states, p.1 ≠ 2) →
        ∀ e', (Editor.mk [1] [(1, 10)] : Editor Nat).add_window 2 20 = some e' →
          e'.window_state 2 = some 20)) :=
  ⟨(C8_add_window_spec (Editor.mk [1] [(1, 10)]) 1 10).1,
   fun h => ((C8_add_window_spec (Editor.mk [1] [(1, 10)]) 2 20).2 h)⟩

/-- C7: registering a duplicate-free list of kinds preserves insertion
order in the registry; the initial internal state docks the first kind
left, the second right, the third bottom (empty when fewer), starts with no
floating windows, and menu enumeration follows the same order. -/
theorem C7_initial_layout {σ : Type} (deflt : Nat → σ) (ws : List Nat)
    (hnd : ws.Nodup) :
    ∃ e : Editor σ, registerAll deflt ws ⟨[], []⟩ = some e ∧
      e.windows = ws ∧ e.menuWindows = ws ∧
      initialState e.windows =
        { left_panel := ws.get? 0
          right_panel := ws.get? 1
          bottom_panel := ws.get? 2
          floating_windows := []
          viewport := .everything
          active_drag_window := none
          active_drop_location := none
          next_floating_window_id := 0 } := by
  obtain ⟨e, h1, h2⟩ := registerAll_windows deflt ws ⟨[], []⟩ hnd (by simp)
  have h2' : e.windows = ws := by simpa using h2
  exact ⟨e, h1, h2', by simp [Editor.menuWindows, h2'], by rw [h2']; rfl⟩

/-- Witness for C7 with three concretely registered kinds. -/
theorem C7_initial_layout_witness :
    ([10, 20, 30] : List Nat).Nodup ∧
    ∃ e : Editor Nat, registerAll (fun _ => 0) [10, 20, 30] ⟨[], []⟩ = some e ∧
      e.windows = [10, 20, 30] ∧ e.menuWindows = [10, 20, 30] ∧
      initialState e.windows =
        { left_panel := ([10, 20, 30] : List Nat).get? 0
          right_panel := ([10, 20, 30] : List Nat).get? 1
          bottom_panel := ([10, 20, 30] : List Nat).get? 2
          floating_windows := []
          viewport := .everything
          active_drag_window := none
          active_drop_location := none
          next_floating_window_id := 0 } :=
  ⟨by decide, C7_initial_layout (fun _ => 0) [10, 20, 30] (by decide)⟩

/-- C2 (falsified by the code, acknowledged in the design notes): the menu's
"open window" action spawns a floating window for a kind that is still
docked, so a reachable state shows the same identity in a panel slot and in
a floating window at once (occurrence count 2). -/
theorem C2_menu_open_duplicates_identity :
    Reachable (initialState [0]) (openWindowFromMenu (initialState [0]) 0) ∧
    (openWindowFromMenu (initialState [0]) 0).left_panel = some 0 ∧
    appearsFloating (openWindowFromMenu (initialState [0]) 0) 0 = true ∧
    occurrenceCount (openWindowFromMenu (initialState [0]) 0) 0 = 2 :=
  ⟨Relation.ReflTransGen.single (EditorStep.menuOpen _ 0), by decide, by decide,
    by decide⟩


namespace Lemmas

open BevyEditorPls

theorem extractDragged_panel (s : EditorInternalState) (p : EditorPanel) :
    extractDragged s (.Panel p) =
      match s.active_panel p with
      | none => none
      | some window_id => some (window_id, s.setPanel p none) := rfl

theorem extractDragged_floating (s : EditorInternalState) (id : Nat) :
    extractDragged s (.FloatingWindow id) =
      match s.floating_windows.findIdx? (fun fw => fw.id == id) with
      | none => none
      | some index =>
          match s.floating_windows.get? index with
          | none => none
          | some fw =>
              some (fw.window,
                { s with floating_windows := swapRemove s.floating_windows index }) := rfl

theorem handle_drag_active (s : EditorInternalState) (inp : PointerInput)
    (aw : WindowPosition) (hrel : inp.any_released = true)
    (hdrag : s.active_drag_window = some aw) :
    handle_drag_and_drop s inp =
      match resolveDropLocation { s with active_drag_window := none } inp with
      | none => some (clearDragState s)
      | some dl =>
          match extractDragged (clearDragState s) aw with
          | none => none
          | some (wid, s3) => some (applyDrop s3 aw wid inp dl) := by
  unfold handle_drag_and_drop
  rw [hrel, hdrag]
  rfl

theorem handle_drag_abandon (s : EditorInternalState) (inp : PointerInput)
    (aw : WindowPosition) (hrel : inp.any_released = true)
    (hdrag : s.active_drag_window = some aw)
    (hdl : resolveDropLocation { s with active_drag_window := none } inp = none) :
    handle_drag_and_drop s inp = some (clearDragState s) := by
  rw [handle_drag_active s inp aw hrel hdrag, hdl]

theorem handle_drag_resolve (s : EditorInternalState) (inp : PointerInput)
    (aw : WindowPosition) (dl : DropLocation) (wid : Nat)
    (s3 : EditorInternalState) (hrel : inp.any_released = true)
    (hdrag : s.active_drag_window = some aw)
    (hdl : resolveDropLocation { s with active_drag_window := none } inp = some dl)
    (hex : extractDragged (clearDragState s) aw = some (wid, s3)) :
    handle_drag_and_drop s inp = some (applyDrop s3 aw wid inp dl) := by
  rw [handle_drag_active s inp aw hrel hdrag, hdl, hex]

theorem handle_drag_panic (s : EditorInternalState) (inp : PointerInput)
    (aw : WindowPosition) (dl : DropLocation) (hrel : inp.any_released = true)
    (hdrag : s.active_drag_window = some aw)
    (hdl : resolveDropLocation { s with active_drag_window := none } inp = some dl)
    (hex : extractDragged (clearDragState s) aw = none) :
    handle_drag_and_drop s inp = none := by
  rw [handle_drag_active s inp aw hrel hdrag, hdl, hex]

theorem active_panel_clearDragState (s : EditorInternalState) (p : EditorPanel) :
    (clearDragState s).active_panel p = s.active_panel p := by
  cases p <;> rfl

theorem resolveDropLocation_recorded (s : EditorInternalState) (inp : PointerInput)
    (d : DropLocation) (h : s.active_drop_location = some d) :
    resolveDropLocation s inp = some d := by
  unfold resolveDropLocation
  rw [h]

end Lemmas

/-- C9: with an active drag whose recorded source is slot `p` and a recorded
drop target, resolution panics exactly when slot `p` is empty; under the
precondition that a `Panel(p)` drag source is only recorded while slot `p`
is occupied (drag handles are enabled only for occupied slots), the panic
branch is therefore unreachable. -/
theorem C9_empty_source_slot_panics (s : EditorInternalState) (inp : PointerInput)
    (p : EditorPanel) (d : DropLocation)
    (hrel : inp.any_released = true)
    (hdrag : s.active_drag_window = some (.Panel p))
    (hdrop : s.active_drop_location = some d) :
    handle_drag_and_drop s inp = none ↔ s.active_panel p = none := by
  have hdl : resolveDropLocation { s with active_drag_window := none } inp = some d :=
    Lemmas.resolveDropLocation_recorded _ inp d hdrop
  rcases hsp : s.active_panel p with _ | w
  · have hex : extractDragged (clearDragState s) (.Panel p) = none := by
      rw [Lemmas.extractDragged_panel, Lemmas.active_panel_clearDragState, hsp]
    rw [Lemmas.handle_drag_panic s inp (.Panel p) d hrel hdrag hdl hex]
    simp
  · have hex : extractDragged (clearDragState s) (.Panel p) =
        some (w, (clearDragState s).setPanel p none) := by
      rw [Lemmas.extractDragged_panel, Lemmas.active_panel_clearDragState, hsp]
    rw [Lemmas.handle_drag_resolve s inp (.Panel p) d w _ hrel hdrag hdl hex]
    simp

/-- Witness for C9: dragging from the empty left slot of a fresh layout with
a recorded drop target on the right slot panics. -/
theorem C9_empty_source_slot_panics_witness :
    handle_drag_and_drop
        (withDrag (initialState []) (.Panel .Left) (some (.Panel .Right)))
        ⟨true, none⟩ = none ↔
      (withDrag (initialState []) (.Panel .Left)
          (some (.Panel .Right))).active_panel .Left = none :=
  C9_empty_source_slot_panics _ ⟨true, none⟩ .Left (.Panel .Right) rfl rfl rfl

namespace Lemmas

open BevyEditorPls

theorem applyDrop_new (s : EditorInternalState) (aw : WindowPosition)
    (wid : Nat) (inp : PointerInput) :
    applyDrop s aw wid inp .NewFloatingWindow =
      { s with
        next_floating_window_id := s.next_floating_window_id + 1,
        floating_windows := s.floating_windows ++
          [⟨wid, s.next_floating_window_id, aw.panel, inp.interact_pos⟩] } := rfl

theorem applyDrop_panel (s : EditorInternalState) (aw : WindowPosition)
    (wid : Nat) (inp : PointerInput) (p : EditorPanel) :
    applyDrop s aw wid inp (.Panel p) =
      match s.active_panel p with
      | some prev => (s.setPanel p (some wid)).set_window aw prev
      | none => s.setPanel p (some wid) := rfl

theorem resolveDropLocation_unrecorded (s : EditorInternalState)
    (inp : PointerInput) (pos : Pos2) (hdrop : s.active_drop_location = none)
    (hpos : inp.interact_pos = some pos) :
    resolveDropLocation s inp =
      (if s.is_in_viewport pos then some DropLocation.NewFloatingWindow else none) := by
  unfold resolveDropLocation
  rw [hdrop, hpos]

theorem active_panel_update_fc (s : EditorInternalState)
    (l : List FloatingWindow) (n : Nat) (p : EditorPanel) :
    ({ s with next_floating_window_id := n,
              floating_windows := l } : EditorInternalState).active_panel p =
      s.active_panel p := by
  cases p <;> rfl

end Lemmas

/-- C3: on pointer release with an active drag source and no recorded drop
target: if the release position is inside the viewport, exactly one new
floating window is spawned hosting the dragged identity, with origin slot =
the source slot when the source was a slot (else none), initial position =
the release position, and a slot source becomes empty; if the position is
outside the viewport, only the drag bookkeeping is cleared — panels and
floating windows are untouched. -/
theorem C3_release_without_recorded_target (s : EditorInternalState)
    (inp : PointerInput) (src : WindowPosition) (pos : Pos2)
    (hrel : inp.any_released = true)
    (hdrag : s.active_drag_window = some src)
    (hdrop : s.active_drop_location = none)
    (hpos : inp.interact_pos = some pos) :
    (s.is_in_viewport pos = false →
      handle_drag_and_drop s inp = some (clearDragState s)) ∧
    (s.is_in_viewport pos = true →
      (∀ a x, src = .Panel a → s.active_panel a = some x →
        ∃ s', handle_drag_and_drop s inp = some s' ∧
          s'.floating_windows = s.floating_windows ++
            [⟨x, s.next_floating_window_id, some a, some pos⟩] ∧
          s'.active_panel a = none ∧
          (∀ b, b ≠ a → s'.active_panel b = s.active_panel b) ∧
          s'.next_floating_window_id = s.next_floating_window_id + 1) ∧
      (∀ fid i fw, src = .FloatingWindow fid →
        s.floating_windows.findIdx? (fun g => g.id == fid) = some i →
        s.floating_windows.get? i = some fw →
        ∃ s', handle_drag_and_drop s inp = some s' ∧
          s'.floating_windows = swapRemove s.floating_windows i ++
            [⟨fw.window, s.next_floating_window_id, none, some pos⟩] ∧
          (∀ b, s'.active_panel b = s.active_panel b) ∧
          s'.next_floating_window_id = s.next_floating_window_id + 1)) := by
  have hvp : ({ s with active_drag_window := none } :
      EditorInternalState).is_in_viewport pos = s.is_in_viewport pos := rfl
  have hdl0 : resolveDropLocation { s with active_drag_window := none } inp =
      (if s.is_in_viewport pos then some DropLocation.NewFloatingWindow else none) :=
    Lemmas.resolveDropLocation_unrecorded
      { s with active_drag_window := none } inp pos hdrop hpos
  refine ⟨fun hout => ?_, fun hin => ⟨?_, ?_⟩⟩
  · exact Lemmas.handle_drag_abandon s inp src hrel hdrag
      (by rw [hdl0, hout]; rfl)
  · rintro a x rfl hax
    have hdl : resolveDropLocation { s with active_drag_window := none } inp =
        some DropLocation.NewFloatingWindow := by
      rw [hdl0, hin]
      rfl
    have hex : extractDragged (clearDragState s) (.Panel a) =
        some (x, (clearDragState s).setPanel a none) := by
      rw [Lemmas.extractDragged_panel, Lemmas.active_panel_clearDragState, hax]
    refine ⟨_, Lemmas.handle_drag_resolve s inp (.Panel a) .NewFloatingWindow x _
      hrel hdrag hdl hex, ?_, ?_, ?_, ?_⟩
    · rw [Lemmas.applyDrop_new]
      show ((clearDragState s).setPanel a none).floating_windows ++ _ =
        s.floating_windows ++ _
      rw [Lemmas.setPanel_floating_windows]
      show s.floating_windows ++
          [⟨x, ((clearDragState s).setPanel a none).next_floating_window_id,
            (WindowPosition.Panel a).panel, inp.interact_pos⟩] = _
      rw [Lemmas.setPanel_next_id, hpos]
      rfl
    · rw [Lemmas.applyDrop_new]
      show (({ (clearDragState s).setPanel a none with
          next_floating_window_id := _, floating_windows := _ }) :
          EditorInternalState).active_panel a = none
      rw [Lemmas.active_panel_update_fc, Lemmas.active_panel_setPanel]
      simp
    · intro b hb
      rw [Lemmas.applyDrop_new]
      show (({ (clearDragState s).setPanel a none with
          next_floating_window_id := _, floating_windows := _ }) :
          EditorInternalState).active_panel b = s.active_panel b
      rw [Lemmas.active_panel_update_fc, Lemmas.active_panel_setPanel,
        if_neg hb, Lemmas.active_panel_clearDragState]
    · rw [Lemmas.applyDrop_new]
      show ((clearDragState s).setPanel a none).next_floating_window_id + 1 = _
      rw [Lemmas.setPanel_next_id]
      rfl
  · rintro fid i fw rfl hfi hget
    have hdl : resolveDropLocation { s with active_drag_window := none } inp =
        some DropLocation.NewFloatingWindow := by
      rw [hdl0, hin]
      rfl
    have hex : extractDragged (clearDragState s) (.FloatingWindow fid) =
        some (fw.window,
          { clearDragState s with
            floating_windows := swapRemove s.floating_windows i }) := by
      rw [Lemmas.extractDragged_floating]
      simp only [show (clearDragState s).floating_windows = s.floating_windows
        from rfl, hfi, hget]
    refine ⟨_, Lemmas.handle_drag_resolve s inp (.FloatingWindow fid)
      .NewFloatingWindow fw.window _ hrel hdrag hdl hex, ?_, ?_, ?_⟩
    · rw [Lemmas.applyDrop_new]
      show swapRemove s.floating_windows i ++
          [⟨fw.window, s.next_floating_window_id,
            (WindowPosition.FloatingWindow fid).panel, inp.interact_pos⟩] = _
      rw [hpos]
      rfl
    · intro b
      rw [Lemmas.applyDrop_new]
      cases b <;> rfl
    · rfl

/-- Witness for C3: dragging the left slot's content (identity 1) of a fresh
two-window layout and releasing at the origin with no recorded target. -/
theorem C3_release_without_recorded_target_witness :
    ((withDrag (initialState [1, 2]) (.Panel .Left) none).is_in_viewport ⟨0, 0⟩ = false →
      handle_drag_and_drop (withDrag (initialState [1, 2]) (.Panel .Left) none)
          ⟨true, some ⟨0, 0⟩⟩ =
        some (clearDragState (withDrag (initialState [1, 2]) (.Panel .Left) none))) ∧
    ((withDrag (initialState [1, 2]) (.Panel .Left) none).is_in_viewport ⟨0, 0⟩ = true →
      (∀ a x, (WindowPosition.Panel .Left) = .Panel a →
        (withDrag (initialState [1, 2]) (.Panel .Left) none).active_panel a = some x →
        ∃ s', handle_drag_and_drop (withDrag (initialState [1, 2]) (.Panel .Left) none)
            ⟨true, some ⟨0, 0⟩⟩ = some s' ∧
          s'.floating_windows =
            (withDrag (initialState [1, 2]) (.Panel .Left) none).floating_windows ++
              [⟨x, (withDrag (initialState [1, 2]) (.Panel .Left) none).next_floating_window_id,
                some a, some ⟨0, 0⟩⟩] ∧
          s'.active_panel a = none ∧
          (∀ b, b ≠ a → s'.active_panel b =
            (withDrag (initialState [1, 2]) (.Panel .Left) none).active_panel b) ∧
          s'.next_floating_window_id =
            (withDrag (initialState [1, 2]) (.Panel .Left) none).next_floating_window_id + 1) ∧
      (∀ fid i fw, (WindowPosition.Panel .Left) = .FloatingWindow fid →
        (withDrag (initialState [1, 2]) (.Panel .Left) none).floating_windows.findIdx?
          (fun g => g.id == fid) = some i →
        (withDrag (initialState [1, 2]) (.Panel .Left) none).floating_windows.get? i = some fw →
        ∃ s', handle_drag_and_drop (withDrag (initialState [1, 2]) (.Panel .Left) none)
            ⟨true, some ⟨0, 0⟩⟩ = some s' ∧
          s'.floating_windows =
            swapRemove (withDrag (initialState [1, 2]) (.Panel .Left) none).floating_windows i ++
              [⟨fw.window, (withDrag (initialState [1, 2]) (.Panel .Left) none).next_floating_window_id,
                none, some ⟨0, 0⟩⟩] ∧
          (∀ b, s'.active_panel b =
            (withDrag (initialState [1, 2]) (.Panel .Left) none).active_panel b) ∧
          s'.next_floating_window_id =
            (withDrag (initialState [1, 2]) (.Panel .Left) none).next_floating_window_id + 1)) :=
  C3_release_without_recorded_target _ ⟨true, some ⟨0, 0⟩⟩ (.Panel .Left) ⟨0, 0⟩
    rfl rfl rfl rfl

namespace Lemmas

open BevyEditorPls

theorem mem_eraseIdx_index {α : Type} {l : List α} {i : Nat} {x : α}
    (hx : x ∈ l.eraseIdx i) : ∃ j, j ≠ i ∧ l[j]? = some x := by
  rw [List.eraseIdx_eq_take_drop_succ, List.mem_append] at hx
  rcases hx with hx | hx
  · obtain ⟨m, hm⟩ := List.mem_iff_getElem?.mp hx
    have hmlt : m < i := by
      have hlen := (List.getElem?_eq_some_iff.mp hm).1
      rw [List.length_take] at hlen
      omega
    rw [List.getElem?_take_of_lt hmlt] at hm
    exact ⟨m, by omega, hm⟩
  · obtain ⟨m, hm⟩ := List.mem_iff_getElem?.mp hx
    rw [List.getElem?_drop] at hm
    exact ⟨i + 1 + m, by omega, hm⟩

theorem mem_swapRemove_index {α : Type} {l : List α} {i : Nat} {x : α}
    (h : i < l.length) (hx : x ∈ swapRemove l i) :
    ∃ j, j ≠ i ∧ l[j]? = some x :=
  mem_eraseIdx_index ((swapRemove_perm l i h).subset hx)

theorem active_panel_update_float (s : EditorInternalState)
    (l : List FloatingWindow) (p : EditorPanel) :
    ({ s with floating_windows := l } : EditorInternalState).active_panel p =
      s.active_panel p := by
  cases p <;> rfl

theorem appearsDocked_update_float (s : EditorInternalState)
    (l : List FloatingWindow) (w : Nat) :
    appearsDocked { s with floating_windows := l } w = appearsDocked s w := rfl

theorem closeOne_eq (s : EditorInternalState) (i : Nat) (fw : FloatingWindow)
    (hget : s.floating_windows.get? i = some fw) :
    closeOne s i =
      (let s1 : EditorInternalState :=
        { s with floating_windows := swapRemove s.floating_windows i };
      match fw.original_panel with
      | none => s1
      | some p =>
          match s1.active_panel p with
          | none => s1.setPanel p (some fw.window)
          | some _ => s1) := by
  unfold closeOne
  rw [hget]

end Lemmas

/-- C4: closing floating window `fw` (index `i`) removes it from the set;
afterwards its identity floats nowhere; if it carried an origin slot that is
currently empty, the identity is restored into that slot; if the origin
slot is occupied or absent, the identity is docked nowhere either
(discarded).  The occurrence hypotheses say `fw` was the only location
showing its identity, as the uniqueness invariant provides. -/
theorem C4_close_floating_window (s : EditorInternalState) (i : Nat)
    (fw : FloatingWindow)
    (hget : s.floating_windows.get? i = some fw)
    (honly : ∀ j, j ≠ i → ∀ g, s.floating_windows.get? j = some g →
      g.window ≠ fw.window)
    (hdock : appearsDocked s fw.window = false) :
    (closeOne s i).floating_windows = swapRemove s.floating_windows i ∧
    appearsFloating (closeOne s i) fw.window = false ∧
    (∀ p, fw.original_panel = some p → s.active_panel p = none →
      (closeOne s i).active_panel p = some fw.window) ∧
    (fw.original_panel = none →
      appearsDocked (closeOne s i) fw.window = false) ∧
    (∀ p, fw.original_panel = some p → s.active_panel p ≠ none →
      appearsDocked (closeOne s i) fw.window = false) := by
  have hlen : i < s.floating_windows.length := by
    rw [List.get?_eq_getElem?] at hget
    exact (List.getElem?_eq_some_iff.mp hget).1
  have hfls : (closeOne s i).floating_windows = swapRemove s.floating_windows i := by
    rw [Lemmas.closeOne_eq s i fw hget]
    rcases hop : fw.original_panel with _ | p
    · rfl
    · simp only [Lemmas.active_panel_update_float]
      rcases hv : s.active_panel p with _ | w
      · simp only [Lemmas.setPanel_floating_windows]
      · rfl
  have hnofloat : ∀ x ∈ swapRemove s.floating_windows i,
      (x.window == fw.window) = false := by
    intro x hx
    obtain ⟨j, hji, hj⟩ := Lemmas.mem_swapRemove_index hlen hx
    have := honly j hji x (by rw [List.get?_eq_getElem?]; exact hj)
    simpa using this
  refine ⟨hfls, ?_, ?_, ?_, ?_⟩
  · unfold appearsFloating
    rw [hfls, List.any_eq_false]
    intro x hx
    simpa using hnofloat x hx
  · intro p hp hempty
    rw [Lemmas.closeOne_eq s i fw hget]
    simp only [hp, Lemmas.active_panel_update_float, hempty,
      Lemmas.active_panel_setPanel]
    simp
  · intro hp
    rw [Lemmas.closeOne_eq s i fw hget]
    simp only [hp, Lemmas.appearsDocked_update_float]
    exact hdock
  · intro p hp hocc
    rcases hv : s.active_panel p with _ | w
    · exact absurd hv hocc
    · rw [Lemmas.closeOne_eq s i fw hget]
      simp only [hp, Lemmas.active_panel_update_float, hv,
        Lemmas.appearsDocked_update_float]
      exact hdock

/-- Witness for C4: closing the popped-out left window (origin slot Left,
now empty) of a fresh layout restores identity 1 into the left slot. -/
theorem C4_close_floating_window_witness :
    ((popOut (initialState [1, 2]) .Left).floating_windows.get? 0 =
      some ⟨1, 0, some .Left, none⟩) ∧
    ((closeOne (popOut (initialState [1, 2]) .Left) 0).floating_windows =
      swapRemove (popOut (initialState [1, 2]) .Left).floating_windows 0 ∧
    appearsFloating (closeOne (popOut (initialState [1, 2]) .Left) 0) 1 = false ∧
    (∀ p, (some EditorPanel.Left : Option EditorPanel) = some p →
      (popOut (initialState [1, 2]) .Left).active_panel p = none →
      (closeOne (popOut (initialState [1, 2]) .Left) 0).active_panel p = some 1) ∧
    ((some EditorPanel.Left : Option EditorPanel) = none →
      appearsDocked (closeOne (popOut (initialState [1, 2]) .Left) 0) 1 = false) ∧
    (∀ p, (some EditorPanel.Left : Option EditorPanel) = some p →
      (popOut (initialState [1, 2]) .Left).active_panel p ≠ none →
      appearsDocked (closeOne (popOut (initialState [1, 2]) .Left) 0) 1 = false)) :=
  ⟨by decide,
    C4_close_floating_window (popOut (initialState [1, 2]) .Left) 0
      ⟨1, 0, some .Left, none⟩ (by decide)
      (by
        intro j hj g hg
        cases j with
        | zero => exact absurd rfl hj
        | succ n =>
            have hfl : (popOut (initialState [1, 2]) EditorPanel.Left).floating_windows =
                [⟨1, 0, some .Left, none⟩] := rfl
            rw [hfl] at hg
            simp at hg)
      (by decide)⟩

namespace Lemmas

open BevyEditorPls

theorem active_panel_update_drag_drop (s : EditorInternalState)
    (dw : Option WindowPosition) (dp : Option DropLocation) (p : EditorPanel) :
    ({ s with active_drag_window := dw,
              active_drop_location := dp } : EditorInternalState).active_panel p =
      s.active_panel p := by
  cases p <;> rfl

theorem dragSlotToSlot_eq (s : EditorInternalState) (inp : PointerInput)
    (a b : EditorPanel) (x y : Nat) (hrel : inp.any_released = true)
    (hab : a ≠ b) (ha : s.active_panel a = some x)
    (hb : s.active_panel b = some y) :
    dragSlotToSlot s a b inp =
      some ((((clearDragState s).setPanel a none).setPanel b
        (some x)).setPanel a (some y)) := by
  unfold dragSlotToSlot
  have hex : extractDragged
      (clearDragState
        { s with active_drag_window := some (WindowPosition.Panel a),
                 active_drop_location := some (DropLocation.Panel b) }) (.Panel a) =
      some (x, (clearDragState s).setPanel a none) := by
    rw [Lemmas.extractDragged_panel, Lemmas.active_panel_clearDragState,
      Lemmas.active_panel_update_drag_drop, ha]
    rfl
  rw [Lemmas.handle_drag_resolve _ inp (.Panel a) (.Panel b) x
    ((clearDragState s).setPanel a none) hrel rfl
    (Lemmas.resolveDropLocation_recorded _ inp _ rfl) hex]
  rw [Lemmas.applyDrop_panel]
  simp only [Lemmas.active_panel_setPanel, if_neg (Ne.symm hab),
    Lemmas.active_panel_clearDragState, Lemmas.active_panel_update_drag_drop, hb]
  rfl

end Lemmas

/-- C1 (amended): when the drag source is a slot `a` and the drop target an
occupied slot `b`, resolution realizes a true swap — `b` receives the
dragged identity, the vacated source slot `a` receives the displaced
identity, nothing else changes — and dragging `b`'s new content back onto
`a` restores the original assignment. -/
theorem C1_slot_swap_roundtrip (s : EditorInternalState) (inp : PointerInput)
    (a b : EditorPanel) (x y : Nat) (hrel : inp.any_released = true)
    (hab : a ≠ b) (ha : s.active_panel a = some x)
    (hb : s.active_panel b = some y) :
    ∃ s1 s2,
      dragSlotToSlot s a b inp = some s1 ∧
      s1.active_panel b = some x ∧ s1.active_panel a = some y ∧
      (∀ c, c ≠ a → c ≠ b → s1.active_panel c = s.active_panel c) ∧
      s1.floating_windows = s.floating_windows ∧
      s1.next_floating_window_id = s.next_floating_window_id ∧
      dragSlotToSlot s1 b a inp = some s2 ∧
      (∀ c, s2.active_panel c = s.active_panel c) ∧
      s2.floating_windows = s.floating_windows ∧
      s2.next_floating_window_id = s.next_floating_window_id := by
  have h1 := Lemmas.dragSlotToSlot_eq s inp a b x y hrel hab ha hb
  have p1 : ((((clearDragState s).setPanel a none).setPanel b
      (some x)).setPanel a (some y)).active_panel b = some x := by
    rw [Lemmas.active_panel_setPanel, if_neg (Ne.symm hab),
      Lemmas.active_panel_setPanel, if_pos rfl]
  have p2 : ((((clearDragState s).setPanel a none).setPanel b
      (some x)).setPanel a (some y)).active_panel a = some y := by
    rw [Lemmas.active_panel_setPanel, if_pos rfl]
  have p3 : ∀ c, c ≠ a → c ≠ b →
      ((((clearDragState s).setPanel a none).setPanel b
        (some x)).setPanel a (some y)).active_panel c = s.active_panel c := by
    intro c hca hcb
    rw [Lemmas.active_panel_setPanel, if_neg hca, Lemmas.active_panel_setPanel,
      if_neg hcb, Lemmas.active_panel_setPanel, if_neg hca,
      Lemmas.active_panel_clearDragState]
  have p4 : ((((clearDragState s).setPanel a none).setPanel b
      (some x)).setPanel a (some y)).floating_windows = s.floating_windows := by
    simp only [Lemmas.setPanel_floating_windows]
    rfl
  have p5 : ((((clearDragState s).setPanel a none).setPanel b
      (some x)).setPanel a (some y)).next_floating_window_id =
      s.next_floating_window_id := by
    simp only [Lemmas.setPanel_next_id]
    rfl
  have h2 := Lemmas.dragSlotToSlot_eq
    ((((clearDragState s).setPanel a none).setPanel b (some x)).setPanel a (some y))
    inp b a x y hrel (Ne.symm hab) p1 p2
  refine ⟨_, _, h1, p1, p2, p3, p4, p5, h2, ?_, ?_, ?_⟩
  · intro c
    by_cases hcb : c = b
    · subst hcb
      rw [Lemmas.active_panel_setPanel, if_pos rfl]
      exact hb.symm
    · by_cases hca : c = a
      · subst hca
        rw [Lemmas.active_panel_setPanel, if_neg hab,
          Lemmas.active_panel_setPanel, if_pos rfl]
        exact ha.symm
      · rw [Lemmas.active_panel_setPanel, if_neg hcb,
          Lemmas.active_panel_setPanel, if_neg hca,
          Lemmas.active_panel_setPanel, if_neg hcb,
          Lemmas.active_panel_clearDragState]
        exact p3 c hca hcb
  · simp only [Lemmas.setPanel_floating_windows]
    exact p4
  · simp only [Lemmas.setPanel_next_id]
    exact p5

/-- Witness for C1: swapping Left (identity 1) onto Right (identity 2) of a
fresh two-window layout and back. -/
theorem C1_slot_swap_roundtrip_witness :
    ∃ s1 s2,
      dragSlotToSlot (initialState [1, 2]) .Left .Right ⟨true, none⟩ = some s1 ∧
      s1.active_panel .Right = some 1 ∧ s1.active_panel .Left = some 2 ∧
      (∀ c, c ≠ EditorPanel.Left → c ≠ EditorPanel.Right →
        s1.active_panel c = (initialState [1, 2]).active_panel c) ∧
      s1.floating_windows = (initialState [1, 2]).floating_windows ∧
      s1.next_floating_window_id = (initialState [1, 2]).next_floating_window_id ∧
      dragSlotToSlot s1 .Right .Left ⟨true, none⟩ = some s2 ∧
      (∀ c, s2.active_panel c = (initialState [1, 2]).active_panel c) ∧
      s2.floating_windows = (initialState [1, 2]).floating_windows ∧
      s2.next_floating_window_id = (initialState [1, 2]).next_floating_window_id :=
  C1_slot_swap_roundtrip (initialState [1, 2]) ⟨true, none⟩ .Left .Right 1 2
    rfl (by decide) rfl rfl

/-- Counterexample to C1 as stated: when the drag source is a floating
window (id 0, hosting identity 2) dropped onto occupied slot Left (identity
1), the source floating window is removed during extraction, so the
`set_window` aimed at its id is a silent no-op and the displaced identity 1
is discarded — it neither docks nor floats afterwards, and no floating
window survives to host it. -/
theorem C1_floating_source_discards_displaced :
    (handle_drag_and_drop
        (withDrag (openWindowFromMenu (initialState [1]) 2)
          (.FloatingWindow 0) (some (.Panel .Left))) ⟨true, none⟩).map
        (fun s' => (s'.left_panel, s'.floating_windows, appearsDocked s' 1,
          appearsFloating s' 1)) =
      some (some 2, [], false, false) := by
  decide

namespace Lemmas

open BevyEditorPls

theorem ids_swapRemove_sub {l : List FloatingWindow} {i : Nat} :
    ∀ j ∈ (swapRemove l i).map (fun g => g.id), j ∈ l.map (fun g => g.id) := by
  intro j hj
  obtain ⟨g, hg, rfl⟩ := List.mem_map.mp hj
  exact List.mem_map.mpr ⟨g, mem_of_mem_swapRemove hg, rfl⟩

theorem ids_swapRemove_nodup {l : List FloatingWindow} {i : Nat}
    (h : i < l.length) (hn : (l.map (fun g => g.id)).Nodup) :
    ((swapRemove l i).map (fun g => g.id)).Nodup := by
  have hp := (swapRemove_perm l i h).map (fun g => g.id)
  exact hp.nodup_iff.mpr (((List.eraseIdx_sublist l i).map _).nodup hn)

theorem ids_append_spawn (l : List FloatingWindow) (c : Nat)
    (fwnew : FloatingWindow) (hid : fwnew.id = c)
    (hb : ∀ fw ∈ l, fw.id < c)
    (hn : (l.map (fun g => g.id)).Nodup) :
    (∀ fw ∈ l ++ [fwnew], fw.id < c + 1) ∧
    ((l ++ [fwnew]).map (fun g => g.id)).Nodup ∧
    (∀ fw' ∈ l ++ [fwnew], fw'.id ∉ l.map (fun g => g.id) → c ≤ fw'.id) := by
  refine ⟨?_, ?_, ?_⟩
  · intro fw hfw
    rcases List.mem_append.mp hfw with h | h
    · exact Nat.lt_succ_of_lt (hb fw h)
    · rw [List.mem_singleton] at h
      subst h
      rw [hid]
      exact Nat.lt_succ_self c
  · rw [List.map_append]
    refine ((List.perm_append_singleton _ _).nodup_iff).mpr ?_
    rw [List.nodup_cons]
    refine ⟨fun hmem => ?_, hn⟩
    obtain ⟨g, hg, hgid⟩ := List.mem_map.mp hmem
    have hlt := hb g hg
    have hgid' : g.id = fwnew.id := hgid
    omega
  · intro fw' hfw' hnm
    rcases List.mem_append.mp hfw' with h | h
    · exact absurd (List.mem_map.mpr ⟨fw', h, rfl⟩) hnm
    · rw [List.mem_singleton] at h
      subst h
      rw [hid]

theorem closeOne_eq_none (s : EditorInternalState) (i : Nat)
    (hget : s.floating_windows.get? i = none) : closeOne s i = s := by
  unfold closeOne
  rw [hget]

theorem closeOne_floats (s : EditorInternalState) (i : Nat)
    (fw : FloatingWindow) (hget : s.floating_windows.get? i = some fw) :
    (closeOne s i).floating_windows = swapRemove s.floating_windows i := by
  rw [closeOne_eq s i fw hget]
  rcases hop : fw.original_panel with _ | p
  · rfl
  · simp only [Lemmas.active_panel_update_float]
    rcases hv : s.active_panel p with _ | w
    · simp only [Lemmas.setPanel_floating_windows]
    · rfl

theorem closeOne_counter (s : EditorInternalState) (i : Nat) :
    (closeOne s i).next_floating_window_id = s.next_floating_window_id := by
  rcases hget : s.floating_windows.get? i with _ | fw
  · rw [closeOne_eq_none s i hget]
  · rw [closeOne_eq s i fw hget]
    rcases hop : fw.original_panel with _ | p
    · rfl
    · simp only [Lemmas.active_panel_update_float]
      rcases hv : s.active_panel p with _ | w
      · simp only [Lemmas.setPanel_next_id]
      · rfl

theorem closeOne_ids (s : EditorInternalState) (i : Nat) :
    (∀ j ∈ (closeOne s i).floating_windows.map (fun g => g.id),
      j ∈ s.floating_windows.map (fun g => g.id)) ∧
    ((s.floating_windows.map (fun g => g.id)).Nodup →
      ((closeOne s i).floating_windows.map (fun g => g.id)).Nodup) := by
  rcases hget : s.floating_windows.get? i with _ | fw
  · rw [closeOne_eq_none s i hget]
    exact ⟨fun j hj => hj, fun hn => hn⟩
  · have hlen : i < s.floating_windows.length := by
      rw [List.get?_eq_getElem?] at hget
      exact (List.getElem?_eq_some_iff.mp hget).1
    rw [closeOne_floats s i fw hget]
    exact ⟨ids_swapRemove_sub, ids_swapRemove_nodup hlen⟩

theorem closeFold_ids (js : List Nat) :
    ∀ s : EditorInternalState,
      ((js.foldl closeOne s).next_floating_window_id =
        s.next_floating_window_id) ∧
      (∀ j ∈ (js.foldl closeOne s).floating_windows.map (fun g => g.id),
        j ∈ s.floating_windows.map (fun g => g.id)) ∧
      ((s.floating_windows.map (fun g => g.id)).Nodup →
        ((js.foldl closeOne s).floating_windows.map (fun g => g.id)).Nodup) := by
  induction js with
  | nil => exact fun s => ⟨rfl, fun j hj => hj, fun hn => hn⟩
  | cons j js ih =>
      intro s
      have h1 := closeOne_ids s j
      have h2 := ih (closeOne s j)
      refine ⟨?_, ?_, ?_⟩
      · rw [List.foldl_cons, h2.1, closeOne_counter]
      · intro k hk
        rw [List.foldl_cons] at hk
        exact h1.1 k (h2.2.1 k hk)
      · intro hn
        rw [List.foldl_cons]
        exact h2.2.2 (h1.2 hn)

theorem menuOpen_eq (s : EditorInternalState) (w : Nat) :
    openWindowFromMenu s w =
      { s with
        next_floating_window_id := s.next_floating_window_id + 1,
        floating_windows := s.floating_windows ++
          [⟨w, s.next_floating_window_id, none, none⟩] } := rfl

theorem popOut_eq_none (s : EditorInternalState) (p : EditorPanel)
    (hv : s.active_panel p = none) : popOut s p = s := by
  unfold popOut
  rw [hv]

theorem popOut_eq_some (s : EditorInternalState) (p : EditorPanel) (w : Nat)
    (hv : s.active_panel p = some w) :
    popOut s p =
      { s.setPanel p none with
        next_floating_window_id := s.next_floating_window_id + 1,
        floating_windows := s.floating_windows ++
          [⟨w, s.next_floating_window_id, some p, none⟩] } := by
  unfold popOut
  rw [hv]
  simp only [Lemmas.setPanel_next_id, Lemmas.setPanel_floating_windows]

end Lemmas

namespace Lemmas

open BevyEditorPls

theorem ids_pack (s0 : EditorInternalState) (fl : List FloatingWindow) (c : Nat)
    (hb0 : ∀ fw ∈ s0.floating_windows, fw.id < s0.next_floating_window_id)
    (hsub : ∀ j ∈ fl.map (fun g => g.id),
      j ∈ s0.floating_windows.map (fun g => g.id))
    (hn : (fl.map (fun g => g.id)).Nodup)
    (hc : c = s0.next_floating_window_id) :
    (∀ fw ∈ fl, fw.id < c) ∧ (fl.map (fun g => g.id)).Nodup ∧
    s0.next_floating_window_id ≤ c ∧
    (∀ fw' ∈ fl, fw'.id ∉ s0.floating_windows.map (fun g => g.id) →
      s0.next_floating_window_id ≤ fw'.id) := by
  subst hc
  refine ⟨?_, hn, Nat.le_refl _, ?_⟩
  · intro fw hfw
    obtain ⟨g, hg, hgid⟩ :=
      List.mem_map.mp (hsub _ (List.mem_map.mpr ⟨fw, hfw, rfl⟩))
    have := hb0 g hg
    have hgid' : g.id = fw.id := hgid
    omega
  · intro fw' hfw' hnm
    exact absurd (hsub _ (List.mem_map.mpr ⟨fw', hfw', rfl⟩)) hnm

theorem applyDrop_ids (s0 base : EditorInternalState) (aw : WindowPosition)
    (wid : Nat) (inp : PointerInput) (dl : DropLocation)
    (hb0 : ∀ fw ∈ s0.floating_windows, fw.id < s0.next_floating_window_id)
    (hsub : ∀ j ∈ base.floating_windows.map (fun g => g.id),
      j ∈ s0.floating_windows.map (fun g => g.id))
    (hnb : (base.floating_windows.map (fun g => g.id)).Nodup)
    (hcb : base.next_floating_window_id = s0.next_floating_window_id) :
    (∀ fw ∈ (applyDrop base aw wid inp dl).floating_windows,
      fw.id < (applyDrop base aw wid inp dl).next_floating_window_id) ∧
    ((applyDrop base aw wid inp dl).floating_windows.map (fun g => g.id)).Nodup ∧
    s0.next_floating_window_id ≤
      (applyDrop base aw wid inp dl).next_floating_window_id ∧
    (∀ fw' ∈ (applyDrop base aw wid inp dl).floating_windows,
      fw'.id ∉ s0.floating_windows.map (fun g => g.id) →
      s0.next_floating_window_id ≤ fw'.id) := by
  have hbb : ∀ fw ∈ base.floating_windows, fw.id < base.next_floating_window_id := by
    intro fw hfw
    obtain ⟨g, hg, hgid⟩ :=
      List.mem_map.mp (hsub _ (List.mem_map.mpr ⟨fw, hfw, rfl⟩))
    have := hb0 g hg
    have hgid' : g.id = fw.id := hgid
    omega
  cases dl with
  | NewFloatingWindow =>
      rw [applyDrop_new]
      obtain ⟨q1, q2, q3⟩ := ids_append_spawn base.floating_windows
        base.next_floating_window_id
        ⟨wid, base.next_floating_window_id, aw.panel, inp.interact_pos⟩
        rfl hbb hnb
      refine ⟨q1, q2, ?_, ?_⟩
      · show s0.next_floating_window_id ≤ base.next_floating_window_id + 1
        omega
      · intro fw' hfw' hnm
        have hnm' : fw'.id ∉ base.floating_windows.map (fun g => g.id) :=
          fun hmem => hnm (hsub _ hmem)
        have := q3 fw' hfw' hnm'
        omega
  | Panel panel =>
      rw [applyDrop_panel]
      rcases hprev : base.active_panel panel with _ | prev
      · exact ids_pack s0 _ _ hb0
          (by rw [setPanel_floating_windows]; exact hsub)
          (by rw [setPanel_floating_windows]; exact hnb)
          (by rw [setPanel_next_id]; exact hcb)
      · cases aw with
        | Panel q =>
            have hfl : ((base.setPanel panel (some wid)).set_window
                (WindowPosition.Panel q) prev).floating_windows =
                base.floating_windows := by
              simp only [EditorInternalState.set_window,
                setPanel_floating_windows]
            have hct : ((base.setPanel panel (some wid)).set_window
                (WindowPosition.Panel q) prev).next_floating_window_id =
                base.next_floating_window_id := by
              simp only [EditorInternalState.set_window, setPanel_next_id]
            exact ids_pack s0 _ _ hb0
              (by rw [hfl]; exact hsub)
              (by rw [hfl]; exact hnb)
              (by rw [hct]; exact hcb)
        | FloatingWindow fid =>
            have hmap : ((base.setPanel panel (some wid)).set_window
                (WindowPosition.FloatingWindow fid) prev).floating_windows.map
                  (fun g => g.id) =
                base.floating_windows.map (fun g => g.id) := by
              simp only [EditorInternalState.set_window,
                map_id_setFloatingWindowFirst, setPanel_floating_windows]
            have hct : ((base.setPanel panel (some wid)).set_window
                (WindowPosition.FloatingWindow fid) prev).next_floating_window_id =
                base.next_floating_window_id := by
              simp only [EditorInternalState.set_window, setPanel_next_id]
            exact ids_pack s0 _ _ hb0
              (by rw [hmap]; exact hsub)
              (by rw [hmap]; exact hnb)
              (by rw [hct]; exact hcb)
end Lemmas

namespace Lemmas

open BevyEditorPls

theorem handle_not_released (s : EditorInternalState) (inp : PointerInput)
    (hr : inp.any_released = false) : handle_drag_and_drop s inp = some s := by
  unfold handle_drag_and_drop
  rw [hr]
  rfl

theorem handle_no_drag (s : EditorInternalState) (inp : PointerInput)
    (h : s.active_drag_window = none) : handle_drag_and_drop s inp = some s := by
  unfold handle_drag_and_drop
  cases hr : inp.any_released
  · rfl
  · rw [h]
    rfl

theorem handle_ids (s s' : EditorInternalState) (inp : PointerInput)
    (h : handle_drag_and_drop s inp = some s')
    (hb : ∀ fw ∈ s.floating_windows, fw.id < s.next_floating_window_id)
    (hn : (s.floating_windows.map (fun g => g.id)).Nodup) :
    (∀ fw ∈ s'.floating_windows, fw.id < s'.next_floating_window_id) ∧
    (s'.floating_windows.map (fun g => g.id)).Nodup ∧
    s.next_floating_window_id ≤ s'.next_floating_window_id ∧
    (∀ fw' ∈ s'.floating_windows,
      fw'.id ∉ s.floating_windows.map (fun g => g.id) →
      s.next_floating_window_id ≤ fw'.id) := by
  have hnoop : s = s' →
      (∀ fw ∈ s'.floating_windows, fw.id < s'.next_floating_window_id) ∧
      (s'.floating_windows.map (fun g => g.id)).Nodup ∧
      s.next_floating_window_id ≤ s'.next_floating_window_id ∧
      (∀ fw' ∈ s'.floating_windows,
        fw'.id ∉ s.floating_windows.map (fun g => g.id) →
        s.next_floating_window_id ≤ fw'.id) := by
    rintro rfl
    exact ⟨hb, hn, Nat.le_refl _,
      fun fw' hfw' hnm => absurd (List.mem_map.mpr ⟨fw', hfw', rfl⟩) hnm⟩
  cases hr : inp.any_released
  · rw [handle_not_released s inp hr] at h
    exact hnoop (Option.some.inj h)
  · rcases hdw : s.active_drag_window with _ | aw
    · rw [handle_no_drag s inp hdw] at h
      exact hnoop (Option.some.inj h)
    · rw [handle_drag_active s inp aw hr hdw] at h
      rcases hdl : resolveDropLocation { s with active_drag_window := none } inp
        with _ | dl
      · rw [hdl] at h
        have hs' : s' = clearDragState s := (Option.some.inj h).symm
        subst hs'
        exact ⟨hb, hn, Nat.le_refl _,
          fun fw' hfw' hnm => absurd (List.mem_map.mpr ⟨fw', hfw', rfl⟩) hnm⟩
      · rw [hdl] at h
        rcases hex : extractDragged (clearDragState s) aw with _ | ⟨wid, s3⟩
        · rw [hex] at h
          exact absurd h (by simp)
        · rw [hex] at h
          have hs' : s' = applyDrop s3 aw wid inp dl := (Option.some.inj h).symm
          subst hs'
          have hbase : (∀ j ∈ s3.floating_windows.map (fun g => g.id),
              j ∈ s.floating_windows.map (fun g => g.id)) ∧
              (s3.floating_windows.map (fun g => g.id)).Nodup ∧
              s3.next_floating_window_id = s.next_floating_window_id := by
            cases aw with
            | Panel p =>
                rw [extractDragged_panel] at hex
                rcases hap : (clearDragState s).active_panel p with _ | w
                · rw [hap] at hex
                  exact absurd hex (by simp)
                · rw [hap] at hex
                  have h3 : s3 = (clearDragState s).setPanel p none :=
                    (congrArg Prod.snd (Option.some.inj hex)).symm
                  subst h3
                  refine ⟨?_, ?_, ?_⟩
                  · rw [setPanel_floating_windows]
                    exact fun j hj => hj
                  · rw [setPanel_floating_windows]
                    exact hn
                  · rw [setPanel_next_id]
                    rfl
            | FloatingWindow fid =>
                rw [extractDragged_floating] at hex
                rcases hfi : (clearDragState s).floating_windows.findIdx?
                    (fun g => g.id == fid) with _ | idx
                · rw [hfi] at hex
                  exact absurd hex (by simp)
                · simp only [hfi] at hex
                  rcases hgt : (clearDragState s).floating_windows.get? idx
                      with _ | fw
                  · simp only [hgt] at hex
                    exact absurd hex (by simp)
                  · simp only [hgt] at hex
                    have h3 : s3 = { clearDragState s with
                        floating_windows :=
                          swapRemove (clearDragState s).floating_windows idx } :=
                      (congrArg Prod.snd (Option.some.inj hex)).symm
                    subst h3
                    have hlen : idx < s.floating_windows.length := by
                      rw [List.get?_eq_getElem?] at hgt
                      exact (List.getElem?_eq_some_iff.mp hgt).1
                    refine ⟨?_, ?_, rfl⟩
                    · exact ids_swapRemove_sub
                    · exact ids_swapRemove_nodup hlen hn
          exact applyDrop_ids s s3 aw wid inp dl hb hbase.1 hbase.2.1 hbase.2.2

end Lemmas

namespace Lemmas

open BevyEditorPls

theorem step_ids (s s' : EditorInternalState) (h : EditorStep s s')
    (hb : ∀ fw ∈ s.floating_windows, fw.id < s.next_floating_window_id)
    (hn : (s.floating_windows.map (fun g => g.id)).Nodup) :
    (∀ fw ∈ s'.floating_windows, fw.id < s'.next_floating_window_id) ∧
    (s'.floating_windows.map (fun g => g.id)).Nodup ∧
    s.next_floating_window_id ≤ s'.next_floating_window_id ∧
    (∀ fw' ∈ s'.floating_windows,
      fw'.id ∉ s.floating_windows.map (fun g => g.id) →
      s.next_floating_window_id ≤ fw'.id) := by
  have hnoopf : ∀ fw' ∈ s.floating_windows,
      fw'.id ∉ s.floating_windows.map (fun g => g.id) →
      s.next_floating_window_id ≤ fw'.id :=
    fun fw' hfw' hnm => absurd (List.mem_map.mpr ⟨fw', hfw', rfl⟩) hnm
  cases h with
  | select p w =>
      exact ids_pack s _ _ hb
        (by rw [setPanel_floating_windows]; exact fun j hj => hj)
        (by rw [setPanel_floating_windows]; exact hn)
        (setPanel_next_id s p w)
  | menuOpen w =>
      obtain ⟨q1, q2, q3⟩ := ids_append_spawn s.floating_windows
        s.next_floating_window_id ⟨w, s.next_floating_window_id, none, none⟩
        rfl hb hn
      exact ⟨q1, q2, Nat.le_succ _, q3⟩
  | popOut p =>
      rcases hv : s.active_panel p with _ | w
      · rw [popOut_eq_none s p hv]
        exact ⟨hb, hn, Nat.le_refl _, hnoopf⟩
      · rw [popOut_eq_some s p w hv]
        obtain ⟨q1, q2, q3⟩ := ids_append_spawn s.floating_windows
          s.next_floating_window_id ⟨w, s.next_floating_window_id, some p, none⟩
          rfl hb hn
        exact ⟨q1, q2, Nat.le_succ _, q3⟩
  | close idxs =>
      obtain ⟨hc, hsub, hnod⟩ := closeFold_ids idxs.reverse s
      refine ⟨?_, hnod hn, ?_, ?_⟩
      · intro fw hfw
        obtain ⟨g, hg, hgid⟩ := List.mem_map.mp
          (hsub _ (List.mem_map.mpr ⟨fw, hfw, rfl⟩))
        have hlt := hb g hg
        have hgid' : g.id = fw.id := hgid
        show fw.id < (idxs.reverse.foldl closeOne s).next_floating_window_id
        rw [hc]
        omega
      · show s.next_floating_window_id ≤
          (idxs.reverse.foldl closeOne s).next_floating_window_id
        exact le_of_eq hc.symm
      · intro fw' hfw' hnm
        exact absurd (hsub _ (List.mem_map.mpr ⟨fw', hfw', rfl⟩)) hnm
  | beginDrag src => exact ⟨hb, hn, Nat.le_refl _, hnoopf⟩
  | recordDrop d => exact ⟨hb, hn, Nat.le_refl _, hnoopf⟩
  | setViewport r => exact ⟨hb, hn, Nat.le_refl _, hnoopf⟩
  | drag _ iinp hh => exact handle_ids _ _ iinp hh hb hn

end Lemmas


namespace Lemmas

open BevyEditorPls

theorem mod_u32_succ_eq {c : Nat} (h : c ≤ (c + 1) % 2 ^ 32) :
    (c + 1) % 2 ^ 32 = c + 1 := by
  rcases Nat.lt_or_ge (c + 1) (2 ^ 32) with hlt | hge
  · exact Nat.mod_eq_of_lt hlt
  · exfalso
    have hmod : (c + 1) % 2 ^ 32 < 2 ^ 32 := Nat.mod_lt _ (by norm_num)
    have hc1 : c + 1 = 2 ^ 32 := by omega
    rw [hc1, Nat.mod_self] at h
    have h2 : 1 < 2 ^ 32 := by norm_num
    omega

theorem openWindowFromMenuW_eq (s : EditorInternalState) (w : Nat)
    (hm : s.next_floating_window_id ≤
      (openWindowFromMenuW s w).next_floating_window_id) :
    openWindowFromMenuW s w = openWindowFromMenu s w := by
  have hmod := mod_u32_succ_eq (c := s.next_floating_window_id) hm
  unfold openWindowFromMenuW openWindowFromMenu
  simp only [hmod]

theorem popOutW_eq_none (s : EditorInternalState) (p : EditorPanel)
    (hv : s.active_panel p = none) : popOutW s p = s := by
  unfold popOutW
  rw [hv]

theorem popOutW_eq_some (s : EditorInternalState) (p : EditorPanel) (w : Nat)
    (hv : s.active_panel p = some w) :
    popOutW s p =
      { s.setPanel p none with
        next_floating_window_id := (s.next_floating_window_id + 1) % 2 ^ 32,
        floating_windows := s.floating_windows ++
          [⟨w, s.next_floating_window_id, some p, none⟩] } := by
  unfold popOutW
  rw [hv]
  simp only [Lemmas.setPanel_next_id, Lemmas.setPanel_floating_windows]

theorem popOutW_eq (s : EditorInternalState) (p : EditorPanel)
    (hm : s.next_floating_window_id ≤ (popOutW s p).next_floating_window_id) :
    popOutW s p = popOut s p := by
  rcases hv : s.active_panel p with _ | w
  · rw [popOutW_eq_none s p hv, popOut_eq_none s p hv]
  · rw [popOutW_eq_some s p w hv] at hm ⊢
    rw [popOut_eq_some s p w hv]
    have hmod := mod_u32_succ_eq (c := s.next_floating_window_id) hm
    rw [hmod]

theorem applyDropW_new (s : EditorInternalState) (aw : WindowPosition)
    (wid : Nat) (inp : PointerInput) :
    applyDropW s aw wid inp .NewFloatingWindow =
      { s with
        next_floating_window_id := (s.next_floating_window_id + 1) % 2 ^ 32,
        floating_windows := s.floating_windows ++
          [⟨wid, s.next_floating_window_id, aw.panel, inp.interact_pos⟩] } := rfl

theorem extractDragged_counter (s base : EditorInternalState)
    (aw : WindowPosition) (wid : Nat)
    (hex : extractDragged s aw = some (wid, base)) :
    base.next_floating_window_id = s.next_floating_window_id := by
  cases aw with
  | Panel p =>
      rw [extractDragged_panel] at hex
      rcases hap : s.active_panel p with _ | w
      · rw [hap] at hex
        exact absurd hex (by simp)
      · rw [hap] at hex
        have hb : base = s.setPanel p none :=
          (congrArg Prod.snd (Option.some.inj hex)).symm
        rw [hb, setPanel_next_id]
  | FloatingWindow fid =>
      rw [extractDragged_floating] at hex
      rcases hfi : s.floating_windows.findIdx? (fun g => g.id == fid)
          with _ | idx
      · rw [hfi] at hex
        exact absurd hex (by simp)
      · simp only [hfi] at hex
        rcases hgt : s.floating_windows.get? idx with _ | fw
        · simp only [hgt] at hex
          exact absurd hex (by simp)
        · simp only [hgt] at hex
          have hb : base =
              { s with floating_windows := swapRemove s.floating_windows idx } :=
            (congrArg Prod.snd (Option.some.inj hex)).symm
          rw [hb]

theorem handleW_not_released (s : EditorInternalState) (inp : PointerInput)
    (hr : inp.any_released = false) :
    handle_drag_and_dropW s inp = some s := by
  unfold handle_drag_and_dropW
  rw [hr]
  rfl

theorem handleW_no_drag (s : EditorInternalState) (inp : PointerInput)
    (h : s.active_drag_window = none) :
    handle_drag_and_dropW s inp = some s := by
  unfold handle_drag_and_dropW
  cases hr : inp.any_released
  · rfl
  · rw [h]
    rfl

theorem handleW_drag_active (s : EditorInternalState) (inp : PointerInput)
    (aw : WindowPosition) (hrel : inp.any_released = true)
    (hdrag : s.active_drag_window = some aw) :
    handle_drag_and_dropW s inp =
      match resolveDropLocation { s with active_drag_window := none } inp with
      | none => some (clearDragState s)
      | some dl =>
          match extractDragged (clearDragState s) aw with
          | none => none
          | some (wid, s3) => some (applyDropW s3 aw wid inp dl) := by
  unfold handle_drag_and_dropW
  rw [hrel, hdrag]
  rfl

theorem handleW_eq (s s' : EditorInternalState) (inp : PointerInput)
    (h : handle_drag_and_dropW s inp = some s')
    (hm : s.next_floating_window_id ≤ s'.next_floating_window_id) :
    handle_drag_and_drop s inp = some s' := by
  cases hr : inp.any_released
  · rw [handleW_not_released s inp hr] at h
    rw [handle_not_released s inp hr]
    exact h
  · rcases hdw : s.active_drag_window with _ | aw
    · rw [handleW_no_drag s inp hdw] at h
      rw [handle_no_drag s inp hdw]
      exact h
    · rw [handleW_drag_active s inp aw hr hdw] at h
      rw [handle_drag_active s inp aw hr hdw]
      rcases hdl : resolveDropLocation { s with active_drag_window := none } inp
          with _ | dl
      · rw [hdl] at h
        exact h
      · rw [hdl] at h
        rcases hex : extractDragged (clearDragState s) aw with _ | ⟨wid, s3⟩
        · simp only [hex] at h
          exact absurd h (by simp)
        · simp only [hex] at h ⊢
          cases dl with
          | Panel p =>
              rw [show applyDrop s3 aw wid inp (.Panel p) =
                applyDropW s3 aw wid inp (.Panel p) from rfl]
              exact h
          | NewFloatingWindow =>
              have hc3 : s3.next_floating_window_id =
                  (clearDragState s).next_floating_window_id :=
                extractDragged_counter (clearDragState s) s3 aw wid hex
              have hc3' : s3.next_floating_window_id = s.next_floating_window_id :=
                hc3
              have hs' : s' = applyDropW s3 aw wid inp .NewFloatingWindow :=
                (Option.some.inj h).symm
              have hm' : s.next_floating_window_id ≤
                  (s3.next_floating_window_id + 1) % 2 ^ 32 := by
                rw [hs'] at hm
                exact hm
              rw [← hc3'] at hm'
              have hmod := mod_u32_succ_eq hm'
              rw [hs', applyDrop_new, applyDropW_new, hmod]

theorem stepW_to_step (s s' : EditorInternalState) (h : EditorStepW s s')
    (hm : s.next_floating_window_id ≤ s'.next_floating_window_id) :
    EditorStep s s' := by
  cases h with
  | select p w => exact EditorStep.select s p w
  | menuOpen w =>
      rw [openWindowFromMenuW_eq s w hm]
      exact EditorStep.menuOpen s w
  | popOut p =>
      rw [popOutW_eq s p hm]
      exact EditorStep.popOut s p
  | close idxs => exact EditorStep.close s idxs
  | beginDrag src => exact EditorStep.beginDrag s src
  | recordDrop d => exact EditorStep.recordDrop s d
  | setViewport r => exact EditorStep.setViewport s r
  | drag _ iinp hh => exact EditorStep.drag s s' iinp (handleW_eq s s' iinp hh hm)

end Lemmas

namespace Lemmas

open BevyEditorPls

theorem spawnPopW_eq (s : EditorInternalState) :
    spawnPopW s =
      { s with next_floating_window_id :=
          (s.next_floating_window_id + 1) % 2 ^ 32 } := by
  unfold spawnPopW
  have hget : (openWindowFromMenuW s 1).floating_windows.get?
      s.floating_windows.length =
      some ⟨1, s.next_floating_window_id, none, none⟩ := by
    show (s.floating_windows ++
      [(⟨1, s.next_floating_window_id, none, none⟩ : FloatingWindow)]).get?
        s.floating_windows.length = _
    rw [List.get?_eq_getElem?]
    exact List.getElem?_concat_length _ _
  show closeOne (openWindowFromMenuW s 1) s.floating_windows.length = _
  rw [closeOne_eq _ _ _ hget]
  have hsw : swapRemove (openWindowFromMenuW s 1).floating_windows
      s.floating_windows.length = s.floating_windows := by
    rw [show (openWindowFromMenuW s 1).floating_windows =
      s.floating_windows ++
        [(⟨1, s.next_floating_window_id, none, none⟩ : FloatingWindow)] from rfl]
    rw [swapRemove_concat, if_neg (lt_irrefl s.floating_windows.length)]
  show ({ openWindowFromMenuW s 1 with
          floating_windows :=
            swapRemove (openWindowFromMenuW s 1).floating_windows
              s.floating_windows.length } : EditorInternalState) = _
  rw [hsw]
  rfl

theorem reach_spawnPopW (s : EditorInternalState) : ReachableW s (spawnPopW s) :=
  Relation.ReflTransGen.tail
    (Relation.ReflTransGen.single (EditorStepW.menuOpen s 1))
    (EditorStepW.close (openWindowFromMenuW s 1) [s.floating_windows.length])

theorem reach_spawnPopIterW (n : Nat) :
    ∀ s : EditorInternalState, ReachableW s (spawnPopIterW n s) := by
  induction n with
  | zero => exact fun s => Relation.ReflTransGen.refl
  | succ n ih =>
      intro s
      exact Relation.ReflTransGen.trans (reach_spawnPopW s) (ih (spawnPopW s))

theorem spawnPopIterW_eq (n : Nat) :
    ∀ s : EditorInternalState, s.next_floating_window_id < 2 ^ 32 →
      spawnPopIterW n s =
        { s with next_floating_window_id :=
            (s.next_floating_window_id + n) % 2 ^ 32 } := by
  induction n with
  | zero =>
      intro s hc
      show s = _
      rw [Nat.add_zero, Nat.mod_eq_of_lt hc]
  | succ n ih =>
      intro s hc
      show spawnPopIterW n (spawnPopW s) = _
      rw [spawnPopW_eq, ih _ (Nat.mod_lt _ (by norm_num))]
      show ({ s with next_floating_window_id :=
        ((s.next_floating_window_id + 1) % 2 ^ 32 + n) % 2 ^ 32 } :
          EditorInternalState) = _
      rw [Nat.mod_add_mod, Nat.add_assoc, Nat.add_comm 1 n]

end Lemmas

/-- C5 (amended): along wrap-free executions — those on which the `u32`
allocation counter never wraps, which holds exactly while fewer than
`2 ^ 32` ids have ever been allocated — every live floating-window id is
below the counter, the live ids are pairwise distinct (no id is reused
while any floating window is alive), and on any further wrap-free step
every floating window carrying a fresh id (in particular any newly spawned
one) receives an id at least the current counter, hence strictly greater
than every id allocated before it (the allocated ids being exactly those
below the counter). -/
theorem C5_wrap_free_ids (ws : List Nat) (s : EditorInternalState)
    (hreach : ReachableNW (initialState ws) s) :
    (∀ fw ∈ s.floating_windows, fw.id < s.next_floating_window_id) ∧
    (s.floating_windows.map (fun g => g.id)).Nodup ∧
    (∀ s', EditorStepW s s' →
      s.next_floating_window_id ≤ s'.next_floating_window_id →
      ∀ fw' ∈ s'.floating_windows,
        fw'.id ∉ s.floating_windows.map (fun g => g.id) →
        s.next_floating_window_id ≤ fw'.id ∧
        ∀ j, j < s.next_floating_window_id → j < fw'.id) := by
  have hinv : (∀ fw ∈ s.floating_windows, fw.id < s.next_floating_window_id) ∧
      (s.floating_windows.map (fun g => g.id)).Nodup := by
    induction hreach with
    | refl => exact ⟨fun fw hfw => absurd hfw (List.not_mem_nil fw), List.nodup_nil⟩
    | tail t u hab hstep hmono ih =>
        obtain ⟨q1, q2, _, _⟩ := Lemmas.step_ids t u
          (Lemmas.stepW_to_step t u hstep hmono) ih.1 ih.2
        exact ⟨q1, q2⟩
  refine ⟨hinv.1, hinv.2, ?_⟩
  intro s' hstep hmono fw' hfw' hfresh
  obtain ⟨_, _, _, q4⟩ := Lemmas.step_ids s s'
    (Lemmas.stepW_to_step s s' hstep hmono) hinv.1 hinv.2
  have hge := q4 fw' hfw' hfresh
  exact ⟨hge, fun j hj => lt_of_lt_of_le hj hge⟩

/-- Witness for C5 at the initial state of a one-window registry. -/
theorem C5_wrap_free_ids_witness :
    (∀ fw ∈ (initialState [1]).floating_windows,
      fw.id < (initialState [1]).next_floating_window_id) ∧
    ((initialState [1]).floating_windows.map (fun g => g.id)).Nodup ∧
    (∀ s', EditorStepW (initialState [1]) s' →
      (initialState [1]).next_floating_window_id ≤ s'.next_floating_window_id →
      ∀ fw' ∈ s'.floating_windows,
        fw'.id ∉ (initialState [1]).floating_windows.map (fun g => g.id) →
        (initialState [1]).next_floating_window_id ≤ fw'.id ∧
        ∀ j, j < (initialState [1]).next_floating_window_id → j < fw'.id) :=
  C5_wrap_free_ids [1] (initialState [1]) (ReachableNW.refl _)

/-- Counterexample to C5 as stated: the id counter is a `u32` whose `+= 1`
wraps modulo `2 ^ 32` in release builds.  Spawn a floating window (id 0),
keep it open, then open-and-close a window `2 ^ 32 - 1` times: the counter
wraps back to 0 and the next spawn hands out id 0 again while the original
id-0 window is still alive — the live id list is `[0, 0]`, so the new id is
neither fresh nor strictly greater than the previously allocated id 0. -/
theorem C5_wrap_reuses_id :
    ReachableW (initialState [1])
      (openWindowFromMenuW
        (spawnPopIterW (2 ^ 32 - 1) (openWindowFromMenuW (initialState [1]) 1))
        1) ∧
    (openWindowFromMenuW
        (spawnPopIterW (2 ^ 32 - 1) (openWindowFromMenuW (initialState [1]) 1))
        1).floating_windows.map (fun g => g.id) = [0, 0] := by
  constructor
  · exact Relation.ReflTransGen.tail
      (Relation.ReflTransGen.trans
        (Relation.ReflTransGen.single (EditorStepW.menuOpen (initialState [1]) 1))
        (Lemmas.reach_spawnPopIterW (2 ^ 32 - 1) _))
      (EditorStepW.menuOpen _ 1)
  · have hs0 : (openWindowFromMenuW (initialState [1]) 1).next_floating_window_id <
        2 ^ 32 := Nat.mod_lt _ (by norm_num)
    rw [Lemmas.spawnPopIterW_eq _ _ hs0]
    have hnext : ((openWindowFromMenuW (initialState [1]) 1).next_floating_window_id
        + (2 ^ 32 - 1)) % 2 ^ 32 = 0 := by
      show ((0 + 1) % 2 ^ 32 + (2 ^ 32 - 1)) % 2 ^ 32 = 0
      rw [Nat.zero_add, Nat.mod_eq_of_lt (show (1 : Nat) < 2 ^ 32 by norm_num),
        Nat.add_sub_cancel' (show (1 : Nat) ≤ 2 ^ 32 by norm_num), Nat.mod_self]
    rw [hnext]
    rfl
